import Mathlib

/-!
Verification of the mesnada orchestrator core (task lifecycle, dependency
scheduling, process reaping, and the tool argument-coercion layer), as a
shallow embedding of the Go sources: pkg/models (task model), internal/store
(FileStore), internal/orchestrator (scheduler), the copilot adapter
(Spawner), and internal/server/tools.go (tool handlers).

Modelling conventions:
- Go time.Time values are Nat instants supplied by the caller (the code only
  stamps "now" into records).
- Go time.Duration is Int nanoseconds.  Request-level duration strings are
  modelled as `Option Int` (none = the empty string); the Go round trip
  time.ParseDuration(d.String()) = d is lossless, so the string layer is
  elided.
- The store map is an association list with unique keys; Save is
  replace-or-insert, matching map assignment.
- Child-process effects (manager.Spawn / manager.Cancel outcomes) are
  parameters of the orchestrator steps, since their success depends on the
  operating system.
-/

namespace Mesnada

/-- TaskStatus (pkg/models task source): pending, running, paused, completed,
failed, cancelled. -/
inductive TaskStatus
  | pending
  | running
  | paused
  | completed
  | failed
  | cancelled
deriving DecidableEq, Repr

/-- TaskProgress (pkg/models): percentage, description, updated_at. -/
structure TaskProgress where
  percentage : Int
  description : String
  updatedAt : Nat
deriving DecidableEq, Repr

/-- Task record (pkg/models Task struct).  Field names follow the Go struct;
time fields are Nat instants, durations Int nanoseconds. -/
structure Task where
  id : String := ""
  prompt : String := ""
  workDir : String := ""
  status : TaskStatus := .pending
  engine : String := ""
  pid : Int := 0
  output : String := ""
  outputTail : String := ""
  error : String := ""
  exitCode : Option Int := none
  model : String := ""
  logFile : String := ""
  progress : Option TaskProgress := none
  createdAt : Nat := 0
  startedAt : Option Nat := none
  completedAt : Option Nat := none
  dependencies : List String := []
  tags : List String := []
  priority : Int := 0
  timeout : Int := 0
  mcpConfig : String := ""
  extraArgs : List String := []
deriving DecidableEq, Repr

/-- Task.IsTerminal (pkg/models): completed, failed, cancelled or paused. -/
def Task.isTerminal (t : Task) : Bool :=
  t.status == .completed || t.status == .failed ||
  t.status == .cancelled || t.status == .paused

/-- ValidEngine (pkg/models task source): the engine constants defined there
are EngineCopilot = "copilot" and EngineClaude = "claude", and ValidEngine
accepts exactly those or the empty string. -/
def ValidEngine (e : String) : Bool :=
  e == "copilot" || e == "claude" || e == ""

/-- DefaultEngine (pkg/models): copilot. -/
def DefaultEngine : String := "copilot"

/-- Lookup by key in an association list modelling a Go map. -/
def lookupKey {β : Type} : List (String × β) → String → Option β
  | [], _ => none
  | p :: rest, id => if p.1 = id then some p.2 else lookupKey rest id

/-- Remove every binding of a key from an association list. -/
def eraseKey {β : Type} : List (String × β) → String → List (String × β)
  | [], _ => []
  | p :: rest, id => if p.1 = id then eraseKey rest id else p :: eraseKey rest id

/-- The in-memory task map of internal/store FileStore, as an association
list from task id to record. -/
abbrev TaskStore := List (String × Task)

/-- FileStore.Get: map lookup; a missing id is the error
"task not found: id" at the call sites. -/
def storeGet (st : TaskStore) (id : String) : Option Task :=
  lookupKey st id

/-- FileStore.Save: map assignment (replace an existing key or insert). -/
def storeSave (st : TaskStore) (t : Task) : TaskStore :=
  (t.id, t) :: eraseKey st t.id

/-- FileStore.Delete: error "task not found" when the id is absent,
otherwise remove the entry. -/
def storeDelete (st : TaskStore) (id : String) : Except String TaskStore :=
  match storeGet st id with
  | none => .error ("task not found: " ++ id)
  | some _ => .ok (eraseKey st id)

/-- ListFilter (internal/store). -/
structure ListFilter where
  status : List TaskStatus := []
  tags : List String := []
  limit : Nat := 0
  offset : Nat := 0

/-- FileStore.matchesFilter: conjunctive status-set and tag-set filter. -/
def matchesFilter (t : Task) (f : ListFilter) : Bool :=
  (f.status.isEmpty || f.status.any (fun s => t.status == s)) &&
  f.tags.all (fun tag => t.tags.contains tag)

/-- Insert a task into a list sorted newest-first by creation time. -/
def insertByCreated (t : Task) : List Task → List Task
  | [] => [t]
  | u :: us =>
    if u.createdAt ≤ t.createdAt then t :: u :: us
    else u :: insertByCreated t us

/-- Sort newest-first by creation time (FileStore.List sorts with
CreatedAt.After). -/
def sortByCreatedDesc : List Task → List Task
  | [] => []
  | t :: ts => insertByCreated t (sortByCreatedDesc ts)

/-- FileStore.List: filter, sort newest-first, then apply offset and limit. -/
def storeList (st : TaskStore) (f : ListFilter) : List Task :=
  let result := (st.map (fun p => p.2)).filter (fun t => matchesFilter t f)
  let sorted := sortByCreatedDesc result
  let sliced :=
    if f.offset > 0 then
      if f.offset ≥ sorted.length then [] else sorted.drop f.offset
    else sorted
  if f.limit > 0 ∧ f.limit < sliced.length then sliced.take f.limit else sliced

/-- On-disk files (per-task log files) as an association list from absolute
path to content. -/
abbrev FileMap := List (String × String)

/-- os.ReadFile on the modelled file system. -/
def fileRead (fm : FileMap) (path : String) : Option String :=
  lookupKey fm path

/-- os.Remove on the modelled file system (best effort: removing a missing
path is a no-op here, mirroring the ignored error). -/
def fileRemove (fm : FileMap) (path : String) : FileMap :=
  eraseKey fm path

/-- ASCII whitespace test for the TrimSpace model. -/
def isSpaceChar (c : Char) : Bool :=
  c = ' ' ∨ c = '\t' ∨ c = '\n' ∨ c = '\r' ∨ c.toNat = 11 ∨ c.toNat = 12

/-- strings.TrimSpace: strip leading and trailing whitespace. -/
def trimSpace (s : String) : String :=
  ⟨((s.data.dropWhile isSpaceChar).reverse.dropWhile isSpaceChar).reverse⟩

/-! Agent adapter (the copilot Spawner; the claude, gemini and opencode
spawners share the same reap and cancel structure). -/

/-- outputTailLines (adapter constant): 50. -/
def outputTailLines : Nat := 50

/-- Spawner.getTail: the last n lines of the captured output (whole output
when it has at most n lines). -/
def getTail (output : String) (lines : Nat) : String :=
  let allLines := output.splitOn "\n"
  if allLines.length ≤ lines then output
  else String.intercalate "\n" (allLines.drop (allLines.length - lines))

/-- Outcome of cmd.Wait() in the reaper: nil error (exit code 0), an
exec.ExitError carrying the exit code and its message, or another wait
error. -/
inductive WaitOutcome
  | success
  | exitError (code : Int) (msg : String)
  | otherError (msg : String)
deriving DecidableEq, Repr

/-- Spawner.waitForCompletion, the reaper body after cmd.Wait() returns:
stamp completed_at and the output snapshot, then resolve the final status.
A status of cancelled or paused at reap time (explicit stop) is preserved
and only the exit code is recorded; otherwise exit 0 gives completed, and a
non-zero exit or wait error gives failed with the error message recorded. -/
def waitForCompletion (t : Task) (w : WaitOutcome) (now : Nat) (captured : String) : Task :=
  let t1 := { t with
    completedAt := some now
    output := captured
    outputTail := getTail captured outputTailLines }
  let explicitStop := t1.status == .cancelled || t1.status == .paused
  match w with
  | .success =>
    if explicitStop then { t1 with exitCode := some 0 }
    else { t1 with status := .completed, exitCode := some 0 }
  | .exitError code msg =>
    if explicitStop then { t1 with exitCode := some code }
    else { t1 with status := .failed, error := msg, exitCode := some code }
  | .otherError msg =>
    if explicitStop then t1
    else { t1 with status := .failed, error := msg }

/-- Observable actions of Spawner.Cancel / Spawner.Pause on a registered
process. -/
inductive CancelEvent
  | cancelContext
  | sendSigterm
  | awaitExit
  | setStatus (s : TaskStatus)
deriving DecidableEq, Repr

/-- The straight-line action order of Spawner.Cancel for a registered
process: cancel the execution context, send SIGTERM, wait for the process to
exit (force kill after 5 s), and only then assign task.Status = cancelled. -/
def cancelEvents : List CancelEvent :=
  [.cancelContext, .sendSigterm, .awaitExit, .setStatus .cancelled]

/-- The straight-line action order of Spawner.Pause: identical mechanics,
with task.Status = paused assigned after the wait. -/
def pauseEvents : List CancelEvent :=
  [.cancelContext, .sendSigterm, .awaitExit, .setStatus .paused]

/-- Position of the first occurrence of an action in a trace. -/
def eventIdx (l : List CancelEvent) (e : CancelEvent) : Nat :=
  l.findIdx (fun x => x == e)

/-- buildArgs overwrites task.Prompt with this self-identification preamble
followed by the original prompt. -/
def selfIdLine (taskID : String) : String :=
  "You are the task_id: " ++ taskID ++ "\n\n"

/-- The manager's engine dispatch (internal/agent/manager.go Spawn switch).
The gemini and opencode engine constants are referenced by the manager but
absent from the models source in the repository; following the spec and the
manager's own error text they are "gemini" and "opencode".  Unknown engines
fall through to the copilot adapter. -/
inductive Adapter
  | copilot
  | claude
  | gemini
  | opencode
deriving DecidableEq, Repr

/-- Manager.Spawn engine-to-adapter selection. -/
def managerSelect (engine : String) : Adapter :=
  if engine == "claude" then .claude
  else if engine == "gemini" then .gemini
  else if engine == "opencode" then .opencode
  else .copilot

/-! Orchestrator (internal/orchestrator). -/

/-- Orchestrator configuration relevant to the embedded operations. -/
structure OrchConfig where
  defaultEngine : String := "copilot"
  defaultMCPConfig : String := ""
  logDir : String := "/logs"

/-- Orchestrator.canStart: true iff every dependency id resolves in the
store and has status completed (vacuously true for no dependencies). -/
def canStart (st : TaskStore) (t : Task) : Bool :=
  t.dependencies.all (fun depID =>
    match storeGet st depID with
    | none => false
    | some dep => dep.status == .completed)

/-- SpawnRequest (pkg/models), with the duration string already parsed
(none = empty string). -/
structure SpawnRequest where
  prompt : String := ""
  workDir : String := ""
  model : String := ""
  engine : String := ""
  dependencies : List String := []
  tags : List String := []
  priority : Int := 0
  timeout : Option Int := none
  mcpConfig : String := ""
  extraArgs : List String := []
  background : Bool := true
  includeDependencyLogs : Bool := false
  dependencyLogLines : Int := 0

/-- Orchestrator.getDependencyLogs: a stable header, then per readable
dependency log a sub-header and its last numLines lines; unreadable
dependencies are skipped. -/
def getDependencyLogs (st : TaskStore) (fm : FileMap) (deps : List String) (numLines : Nat) : String :=
  if deps.isEmpty then ""
  else
    "===LAST TASK RESULTS===\n\n" ++ String.join (deps.map (fun depID =>
      match storeGet st depID with
      | none => ""
      | some dep =>
        if dep.logFile == "" then ""
        else
          match fileRead fm dep.logFile with
          | none => ""
          | some content =>
            let lines := content.splitOn "\n"
            let startIdx := if lines.length > numLines then lines.length - numLines else 0
            "--- Task: " ++ depID ++ " ---\n" ++
            String.intercalate "\n" (lines.drop startIdx) ++ "\n\n"))

/-- The pending task record Orchestrator.Spawn builds and persists:
defaults applied for work_dir, engine and mcp_config, dependency logs
appended to the prompt when requested. -/
def spawnTask (cfg : OrchConfig) (st : TaskStore) (fm : FileMap) (req : SpawnRequest)
    (newID : String) (now : Nat) : Task :=
  let workDir := if req.workDir == "" then "." else req.workDir
  let mcpConfig := if req.mcpConfig == "" then cfg.defaultMCPConfig else req.mcpConfig
  let engine := if req.engine == "" then cfg.defaultEngine else req.engine
  let prompt :=
    if req.includeDependencyLogs && ¬ req.dependencies.isEmpty then
      let logLines := if req.dependencyLogLines ≤ 0 then 100 else req.dependencyLogLines.toNat
      let depLogs := getDependencyLogs st fm req.dependencies logLines
      if depLogs == "" then req.prompt else req.prompt ++ "\n\n" ++ depLogs
    else req.prompt
  { id := newID
    prompt := prompt
    workDir := workDir
    status := .pending
    engine := engine
    model := req.model
    dependencies := req.dependencies
    tags := req.tags
    priority := req.priority
    timeout := req.timeout.getD 0
    mcpConfig := mcpConfig
    extraArgs := req.extraArgs
    createdAt := now }

/-- Result of handing a startable task to the manager: the adapter started
the child (recording its pid), the spawn failed with an error, or the
background goroutine has not run yet. -/
inductive SpawnOutcome
  | started (pid : Int)
  | spawnFailed (msg : String)
  | deferred
deriving DecidableEq, Repr

/-- Orchestrator.startTask composed with the adapter's Spawn: on success the
adapter rewrites the prompt with the self-identification preamble, derives
the log path, records pid and started_at and sets the task running; on spawn
failure the task goes straight to failed with the error recorded.  Either
way the record is saved.  A deferred background start leaves the pending
record as is. -/
def startTask (cfg : OrchConfig) (st : TaskStore) (t : Task) (now : Nat) :
    SpawnOutcome → Task × TaskStore
  | .started pid =>
    let t2 := { t with
      prompt := selfIdLine t.id ++ t.prompt
      logFile := cfg.logDir ++ "/" ++ t.id ++ ".log"
      pid := pid
      startedAt := some now
      status := .running }
    (t2, storeSave st t2)
  | .spawnFailed msg =>
    let t2 := { t with
      prompt := selfIdLine t.id ++ t.prompt
      logFile := cfg.logDir ++ "/" ++ t.id ++ ".log"
      status := .failed
      error := msg
      completedAt := some now }
    (t2, storeSave st t2)
  | .deferred => (t, st)

/-- Orchestrator.Spawn after validation: persist the pending task, then hand
it to the manager iff canStart holds. -/
def orchSpawn (cfg : OrchConfig) (st : TaskStore) (fm : FileMap) (req : SpawnRequest)
    (newID : String) (now : Nat) (outcome : SpawnOutcome) : Task × TaskStore :=
  let task := spawnTask cfg st fm req newID now
  let st1 := storeSave st task
  if canStart st1 task then startTask cfg st1 task now outcome
  else (task, st1)

/-- Orchestrator.processDependentTasks: when a task finishes completed, every
pending task whose dependencies are now all completed is started; the
returned list is exactly the set of tasks handed to startTask. -/
def processDependentTasks (st : TaskStore) (completed : Task) : List Task :=
  if completed.status ≠ .completed then []
  else (storeList st { status := [.pending] }).filter (fun t => canStart st t)

/-- The event Orchestrator.Wait's select resolves with for a non-terminal
task: a subscriber delivery of the final record, or the wait deadline
firing. -/
inductive WaitEvent
  | completion (t : Task)
  | timedOut
deriving DecidableEq, Repr

/-- Orchestrator.Wait: a terminal task is returned immediately; otherwise
the select either receives the final record from the subscriber channel, or
times out, in which case the current stored record is returned together with
a timeout error.  The result pairs (task?, error?) with the store, which
Wait never mutates. -/
def orchWait (st : TaskStore) (taskID : String) (ev : WaitEvent) :
    (Option Task × Option String) × TaskStore :=
  match storeGet st taskID with
  | none => ((none, some ("task not found: " ++ taskID)), st)
  | some task =>
    if task.isTerminal then ((some task, none), st)
    else
      match ev with
      | .completion t => ((some t, none), st)
      | .timedOut =>
        ((storeGet st taskID, some ("timeout waiting for task " ++ taskID)), st)

/-- Orchestrator.Cancel: reject a missing or terminal task; a running task
is first stopped through the manager (whose failure aborts); then the record
is marked cancelled with completed_at stamped and saved. -/
def orchCancel (st : TaskStore) (taskID : String) (now : Nat)
    (managerCancel : Except String Unit) : Except String Unit × TaskStore :=
  match storeGet st taskID with
  | none => (.error ("task not found: " ++ taskID), st)
  | some task =>
    if task.isTerminal then
      (.error ("task " ++ taskID ++ " is already in terminal state"), st)
    else
      match (if task.status == .running then managerCancel else .ok ()) with
      | .error e => (.error e, st)
      | .ok () =>
        (.ok (), storeSave st { task with status := .cancelled, completedAt := some now })

/-- Orchestrator.Pause: an already-paused task is returned as a successful
no-op; other terminal tasks are rejected; a running task is first stopped
through the manager; then the record is marked paused with completed_at
stamped and saved. -/
def orchPause (st : TaskStore) (taskID : String) (now : Nat)
    (managerPause : Except String Unit) : Except String Task × TaskStore :=
  match storeGet st taskID with
  | none => (.error ("task not found: " ++ taskID), st)
  | some task =>
    if task.status == .paused then (.ok task, st)
    else if task.isTerminal then
      (.error ("task " ++ taskID ++ " is already in terminal state"), st)
    else
      match (if task.status == .running then managerPause else .ok ()) with
      | .error e => (.error e, st)
      | .ok () =>
        let t2 := { task with status := .paused, completedAt := some now }
        (.ok t2, storeSave st t2)

/-- ResumeOptions (internal/orchestrator), with the duration string parsed
(none = empty string) and tags nil-vs-present as an Option. -/
structure ResumeOptions where
  prompt : String := ""
  model : String := ""
  background : Bool := true
  timeout : Option Int := none
  tags : Option (List String) := none

/-- The resume prompt Orchestrator.Resume formats from the paused task and
the caller's new instructions. -/
def resumePrompt (prev : Task) (p : String) : String :=
  "Resume work from previous task_id: " ++ prev.id ++ "\n" ++
  "Previous task log file path: " ++ prev.logFile ++ "\n\n" ++
  "Additional resume instructions:\n" ++ trimSpace p ++ "\n"

/-- The SpawnRequest Orchestrator.Resume assembles after its checks pass:
the resume prompt, work_dir / dependencies / priority / mcp_config /
extra_args carried over from the paused task, and model, timeout and tags
from it as well unless the caller overrides them. -/
def resumeRequest (prev : Task) (opts : ResumeOptions) : SpawnRequest :=
  { prompt := resumePrompt prev opts.prompt
    workDir := prev.workDir
    model := if opts.model == "" then prev.model else opts.model
    dependencies := prev.dependencies
    tags :=
      match opts.tags with
      | some ts => ts
      | none => prev.tags
    priority := prev.priority
    timeout :=
      match opts.timeout with
      | some d => some d
      | none => if prev.timeout > 0 then some prev.timeout else none
    mcpConfig := prev.mcpConfig
    extraArgs := prev.extraArgs
    background := opts.background }

/-- Orchestrator.Resume: reject unless the previous task is paused and the
new prompt is non-blank; otherwise spawn a brand-new task from the inherited
request. -/
def orchResume (cfg : OrchConfig) (st : TaskStore) (fm : FileMap) (taskID : String)
    (opts : ResumeOptions) (newID : String) (now : Nat) (outcome : SpawnOutcome) :
    Except String (Task × TaskStore) :=
  match storeGet st taskID with
  | none => .error ("task not found: " ++ taskID)
  | some prev =>
    if prev.status ≠ .paused then
      .error ("task " ++ taskID ++ " is not paused")
    else if trimSpace opts.prompt == "" then .error "prompt is required"
    else .ok (orchSpawn cfg st fm (resumeRequest prev opts) newID now outcome)

/-- Orchestrator.Delete: a missing task is an error from Get; a running task
is best-effort cancelled (manager errors are logged and ignored) and saved
as cancelled; then the record is removed via the store, whose own not-found
error propagates. -/
def orchDelete (st : TaskStore) (taskID : String) (now : Nat) :
    Except String Unit × TaskStore :=
  match storeGet st taskID with
  | none => (.error ("task not found: " ++ taskID), st)
  | some task =>
    let st1 :=
      if task.status == .running then
        storeSave st { task with status := .cancelled, completedAt := some now }
      else st
    match storeDelete st1 taskID with
    | .ok st2 => (.ok (), st2)
    | .error e => (.error e, st1)

/-- Orchestrator.Purge: a missing task is success (idempotent); a running
task is best-effort cancelled and saved; the log file, if any, is
best-effort removed; then the record is deleted, a store not-found error
again counting as success. -/
def orchPurge (st : TaskStore) (fm : FileMap) (taskID : String) (now : Nat) :
    Except String Unit × TaskStore × FileMap :=
  match storeGet st taskID with
  | none => (.ok (), st, fm)
  | some task =>
    let st1 :=
      if task.status == .running then
        storeSave st { task with status := .cancelled, completedAt := some now }
      else st
    let fm1 := if task.logFile ≠ "" then fileRemove fm task.logFile else fm
    match storeDelete st1 taskID with
    | .ok st2 => (.ok (), st2, fm1)
    | .error _ => (.ok (), st1, fm1)

/-- Orchestrator.SetProgress: look up the task, clamp the percentage to
[0, 100], and replace the task's progress with the clamped value, the
description and the current time; nothing else in the record changes. -/
def orchSetProgress (st : TaskStore) (taskID : String) (percentage : Int)
    (description : String) (now : Nat) : Except String Unit × TaskStore :=
  match storeGet st taskID with
  | none => (.error ("task not found: " ++ taskID), st)
  | some task =>
    let p := if percentage < 0 then 0 else if percentage > 100 then 100 else percentage
    (.ok (),
     storeSave st { task with
       progress := some { percentage := p, description := description, updatedAt := now } })

/-! Tool-dispatch layer (internal/server/tools.go). -/

/-- The JSON value received for set_progress.percentage: json.Unmarshal into
an empty interface yields float64 for every JSON number (modelled as an
exact rational), string for strings, and some other type otherwise. -/
inductive PercentageArg
  | num (q : Rat)
  | str (s : String)
  | other (typeName : String)
deriving DecidableEq, Repr

/-- The sanitising loop of toolSetProgress: keep decimal digits, and keep a
minus sign only while the accumulator is still empty. -/
def sanitizeDigits (s : String) : String :=
  ⟨s.data.foldl
    (fun acc ch =>
      if ('0' ≤ ch ∧ ch ≤ '9') ∨ (ch = '-' ∧ acc = []) then acc ++ [ch] else acc)
    []⟩

/-- Lower bound of Go's 64-bit int, which fmt.Sscanf "%d" parses into. -/
def int64Min : Int := -9223372036854775808

/-- Upper bound of Go's 64-bit int. -/
def int64Max : Int := 9223372036854775807

/-- Decimal digit-list value (helper for the ParseInt model). -/
def digitsVal (l : List Char) : Nat :=
  l.foldl (fun n c => 10 * n + (c.toNat - Char.toNat '0')) 0

/-- Split an optional leading sign off a character list, returning the sign
and the remaining characters. -/
def splitSign : List Char → Int × List Char
  | '-' :: rest => (-1, rest)
  | '+' :: rest => (1, rest)
  | l => (1, l)

/-- strconv.ParseInt base 10 bit size 64, as fmt.Sscanf "%d" invokes it: an
optional sign followed by at least one digit, rejected when the value leaves
the 64-bit range.  On failure Sscanf assigns nothing. -/
def parseIntDec (s : String) : Option Int :=
  let sd := splitSign s.data
  if sd.2.isEmpty ∨ ¬ sd.2.all (fun c => '0' ≤ c ∧ c ≤ '9') then none
  else
    let v : Int := sd.1 * (digitsVal sd.2 : Int)
    if int64Min ≤ v ∧ v ≤ int64Max then some v else none

/-- Truncation toward zero, Go's int(v) conversion of a float64 whose value
is representable in int. -/
def ratTrunc (q : Rat) : Int :=
  q.num.tdiv q.den

/-- The percentage coercion of toolSetProgress: a JSON number is truncated
with int(v); a string is sanitised and then scanned with fmt.Sscanf "%d",
the variable keeping its zero value when the string is empty or the scan
fails (including 64-bit overflow); any other type is a type error. -/
def coercePercentage : PercentageArg → Except String Int
  | .num q => .ok (ratTrunc q)
  | .str s =>
    let sanitized := sanitizeDigits s
    if sanitized == "" then .ok 0
    else
      match parseIntDec sanitized with
      | some v => .ok v
      | none => .ok 0
  | .other typeName => .error ("invalid percentage type: " ++ typeName)

/-- toolSetProgress: coerce the percentage argument, then delegate to
Orchestrator.SetProgress. -/
def toolSetProgress (st : TaskStore) (taskID : String) (arg : PercentageArg)
    (description : String) (now : Nat) : Except String Unit × TaskStore :=
  match coercePercentage arg with
  | .error e => (.error e, st)
  | .ok p => orchSetProgress st taskID p description now

/-- toolSpawnAgent's validation front end: a missing prompt and a non-empty
engine failing ValidEngine are rejected before any task is created; the
rejection text itself enumerates copilot, claude, gemini and opencode as the
valid engines.  A surviving request is handed to Orchestrator.Spawn. -/
def toolSpawnAgent (cfg : OrchConfig) (st : TaskStore) (fm : FileMap)
    (req : SpawnRequest) (newID : String) (now : Nat) (outcome : SpawnOutcome) :
    Except String (Task × TaskStore) :=
  if req.prompt == "" then .error "prompt is required"
  else if req.engine ≠ "" ∧ ¬ ValidEngine req.engine then
    .error ("invalid engine: " ++ req.engine ++ " (valid: copilot, claude, gemini, opencode)")
  else
    let engine := if req.engine == "" then cfg.defaultEngine else req.engine
    .ok (orchSpawn cfg st fm { req with engine := engine } newID now outcome)

/-! Spec-side definitions, written from the specification's words for
comparison with the code-side definitions above. -/

/-- The specification's stored-percentage formula: min(100, max(0, n)). -/
def specStoredPercentage (n : Int) : Int :=
  min 100 (max 0 n)

/-- The specification's extract_digits followed by int(): the integer value
of the sanitised digit string, with no width limit, and 0 for an empty or
non-numeric string. -/
def specExtractDigitsInt (s : String) : Int :=
  let sd := splitSign (sanitizeDigits s).data
  if sd.2.isEmpty ∨ ¬ sd.2.all (fun c => '0' ≤ c ∧ c ≤ '9') then 0
  else sd.1 * (digitsVal sd.2 : Int)

/-- Convenience projection: the stored progress percentage of a task id. -/
def storedPercentage (st : TaskStore) (taskID : String) : Option Int :=
  match storeGet st taskID with
  | none => none
  | some t =>
    match t.progress with
    | none => none
    | some pr => some pr.percentage

/-! Concrete sample data used by witnesses and counterexamples. -/

/-- A completed task that others can depend on. -/
def taskA : Task :=
  { id := "a", prompt := "build", workDir := "/w", status := .completed,
    createdAt := 1, logFile := "/logs/a.log" }

/-- A pending task depending on taskA. -/
def taskB : Task :=
  { id := "b", prompt := "test", workDir := "/w", status := .pending,
    dependencies := ["a"], createdAt := 2 }

/-- A pending task with a dependency id absent from the store. -/
def taskC : Task :=
  { id := "c", prompt := "deploy", workDir := "/w", status := .pending,
    dependencies := ["ghost"], createdAt := 3 }

/-- A running task. -/
def taskR : Task :=
  { id := "r", prompt := "serve", workDir := "/w", status := .running,
    pid := 42, startedAt := some 4, createdAt := 4 }

/-- A paused task with every inheritable field populated. -/
def taskP : Task :=
  { id := "p", prompt := "old work", workDir := "/proj", status := .paused,
    model := "m1", logFile := "/logs/p.log", dependencies := ["a"],
    tags := ["alpha"], priority := 2, timeout := 60, mcpConfig := "cfg.json",
    extraArgs := ["--fast"], createdAt := 5, completedAt := some 6 }

/-- A failed task (terminal, not paused). -/
def taskF : Task :=
  { id := "f", prompt := "flaky", workDir := "/w", status := .failed,
    error := "exit status 1", exitCode := some 1, createdAt := 6,
    completedAt := some 7, logFile := "/logs/f.log" }

/-- The sample store holding all of the tasks above. -/
def sampleStore : TaskStore :=
  [("a", taskA), ("b", taskB), ("c", taskC), ("r", taskR), ("p", taskP), ("f", taskF)]

/-- The sample file system holding the log files of the sample store. -/
def sampleFiles : FileMap :=
  [("/logs/a.log", "line1\nline2"), ("/logs/p.log", "old output"),
   ("/logs/f.log", "boom")]

/-- A spawn request whose dependency id is absent from the sample store. -/
def ghostReq : SpawnRequest :=
  { prompt := "blocked", dependencies := ["ghost"] }

/-! Helper lemmas about the store, file system and list operations. -/

/-- Erasing a key removes every binding of it. -/
theorem lookupKey_eraseKey_self {β : Type} (l : List (String × β)) (k : String) :
    lookupKey (eraseKey l k) k = none := by
  induction l with
  | nil => rfl
  | cons hd tl ih =>
    by_cases h : hd.1 = k
    · simpa [eraseKey, h] using ih
    · simp [eraseKey, lookupKey, h, ih]

/-- Erasing one key leaves the lookup of any other key unchanged. -/
theorem lookupKey_eraseKey_ne {β : Type} (l : List (String × β)) (k id : String)
    (h : id ≠ k) : lookupKey (eraseKey l k) id = lookupKey l id := by
  induction l with
  | nil => rfl
  | cons hd tl ih =>
    by_cases hk : hd.1 = k
    · simp [eraseKey, lookupKey, hk, Ne.symm h, ih]
    · by_cases hid : hd.1 = id
      · simp [eraseKey, lookupKey, hk, hid, h]
      · simp [eraseKey, lookupKey, hk, hid, ih]

/-- Save makes a task retrievable under its own id. -/
theorem storeGet_save_self (st : TaskStore) (t : Task) :
    storeGet (storeSave st t) t.id = some t := by
  simp [storeGet, storeSave, lookupKey]

/-- Save leaves every other id unchanged. -/
theorem storeGet_save_ne (st : TaskStore) (t : Task) (id : String) (h : id ≠ t.id) :
    storeGet (storeSave st t) id = storeGet st id := by
  have : t.id ≠ id := fun he => h he.symm
  simp [storeGet, storeSave, lookupKey, this, lookupKey_eraseKey_ne st t.id id h]

/-- Lookup after save, in one equation. -/
theorem storeGet_save (st : TaskStore) (t : Task) (id : String) :
    storeGet (storeSave st t) id = if id = t.id then some t else storeGet st id := by
  by_cases h : id = t.id
  · subst h
    simp [storeGet_save_self]
  · simp [h, storeGet_save_ne st t id h]

/-- A removed file no longer reads. -/
theorem fileRead_remove_self (fm : FileMap) (path : String) :
    fileRead (fileRemove fm path) path = none := by
  simp [fileRead, fileRemove, lookupKey_eraseKey_self]

/-- A deleted task id no longer resolves. -/
theorem storeGet_eraseKey_self (st : TaskStore) (id : String) :
    storeGet (eraseKey st id) id = none := by
  simp [storeGet, lookupKey_eraseKey_self]

/-- Membership is preserved by sorted insertion. -/
theorem mem_insertByCreated (t u : Task) (l : List Task) :
    u ∈ insertByCreated t l ↔ u = t ∨ u ∈ l := by
  induction l with
  | nil => simp [insertByCreated]
  | cons hd tl ih =>
    by_cases h : hd.createdAt ≤ t.createdAt
    · simp [insertByCreated, h]
    · simp [insertByCreated, h, ih]
      tauto

/-- Membership is preserved by the newest-first sort. -/
theorem mem_sortByCreatedDesc (u : Task) (l : List Task) :
    u ∈ sortByCreatedDesc l ↔ u ∈ l := by
  induction l with
  | nil => simp [sortByCreatedDesc]
  | cons hd tl ih =>
    simp [sortByCreatedDesc, mem_insertByCreated, ih]

/-- Listing with a pending-status filter returns exactly the pending records. -/
theorem mem_storeList_pending (st : TaskStore) (t : Task) :
    t ∈ storeList st { status := [.pending] } ↔
      t ∈ st.map (fun p => p.2) ∧ t.status = .pending := by
  simp [storeList, mem_sortByCreatedDesc, List.mem_filter, matchesFilter]

/-- canStart characterised: every dependency resolves and is completed. -/
theorem canStart_iff (st : TaskStore) (t : Task) :
    canStart st t = true ↔
      ∀ d ∈ t.dependencies, ∃ u, storeGet st d = some u ∧ u.status = .completed := by
  unfold canStart
  rw [List.all_eq_true]
  constructor
  · intro h d hd
    have hx := h d hd
    cases hget : storeGet st d with
    | none => rw [hget] at hx; simp at hx
    | some u =>
      rw [hget] at hx
      simp at hx
      exact ⟨u, rfl, hx⟩
  · intro h d hd
    obtain ⟨u, hu, hs⟩ := h d hd
    rw [hu]
    simp [hs]

/-- The freshly built spawn task carries the requested id. -/
theorem spawnTask_id (cfg : OrchConfig) (st : TaskStore) (fm : FileMap)
    (req : SpawnRequest) (newID : String) (now : Nat) :
    (spawnTask cfg st fm req newID now).id = newID := rfl

/-- The freshly built spawn task is pending. -/
theorem spawnTask_status (cfg : OrchConfig) (st : TaskStore) (fm : FileMap)
    (req : SpawnRequest) (newID : String) (now : Nat) :
    (spawnTask cfg st fm req newID now).status = .pending := rfl

/-- The freshly built spawn task carries the requested dependencies. -/
theorem spawnTask_deps (cfg : OrchConfig) (st : TaskStore) (fm : FileMap)
    (req : SpawnRequest) (newID : String) (now : Nat) :
    (spawnTask cfg st fm req newID now).dependencies = req.dependencies := rfl

/-- The orchestrator's clamp agrees with the spec's min/max formula. -/
theorem clamp_eq_spec (p : Int) :
    (if p < 0 then 0 else if p > 100 then 100 else p) = specStoredPercentage p := by
  unfold specStoredPercentage
  rw [min_def, max_def]
  split_ifs <;> omega

/-- SetProgress on a present id succeeds and rewrites exactly the progress
field, leaving every other id alone. -/
theorem orchSetProgress_ok (st : TaskStore) (id : String) (p : Int) (d : String)
    (now : Nat) (t : Task) (hget : storeGet st id = some t) (hid : t.id = id) :
    (orchSetProgress st id p d now).1 = .ok () ∧
    storeGet (orchSetProgress st id p d now).2 id =
      some ({ t with progress := some ⟨if p < 0 then 0 else if p > 100 then 100 else p, d, now⟩ }) ∧
    (∀ other, other ≠ id → storeGet (orchSetProgress st id p d now).2 other = storeGet st other) := by
  unfold orchSetProgress
  rw [hget]
  refine ⟨rfl, ?_, ?_⟩
  · rw [storeGet_save]
    simp [hid]
  · intro other hne
    rw [storeGet_save]
    simp [hid, hne]

/-- The stored percentage after SetProgress is the clamped input. -/
theorem storedPercentage_setProgress (st : TaskStore) (id : String) (p : Int)
    (d : String) (now : Nat) (t : Task) (hget : storeGet st id = some t)
    (hid : t.id = id) :
    storedPercentage (orchSetProgress st id p d now).2 id =
      some (specStoredPercentage p) := by
  have h := (orchSetProgress_ok st id p d now t hget hid).2.1
  unfold storedPercentage
  rw [h]
  simp [clamp_eq_spec]

/-- storeDelete succeeds on a present id, removing the bindings. -/
theorem storeDelete_of_some (st : TaskStore) (id : String)
    (h : (storeGet st id).isSome) :
    storeDelete st id = .ok (eraseKey st id) := by
  unfold storeDelete
  cases hs : storeGet st id with
  | none => rw [hs] at h; simp at h
  | some u => rfl

/-- The task that orchSpawn creates carries the request's fields (with the
documented defaults applied), has the fresh id, keeps the request prompt as
a suffix of its final prompt, and no other store entry changes. -/
theorem orchSpawn_fields (cfg : OrchConfig) (st : TaskStore) (fm : FileMap)
    (req : SpawnRequest) (newID : String) (now : Nat) (outcome : SpawnOutcome)
    (hlogs : req.includeDependencyLogs = false) :
    (orchSpawn cfg st fm req newID now outcome).1.id = newID ∧
    (∃ pre, (orchSpawn cfg st fm req newID now outcome).1.prompt = pre ++ req.prompt) ∧
    (orchSpawn cfg st fm req newID now outcome).1.workDir =
      (if req.workDir == "" then "." else req.workDir) ∧
    (orchSpawn cfg st fm req newID now outcome).1.dependencies = req.dependencies ∧
    (orchSpawn cfg st fm req newID now outcome).1.priority = req.priority ∧
    (orchSpawn cfg st fm req newID now outcome).1.mcpConfig =
      (if req.mcpConfig == "" then cfg.defaultMCPConfig else req.mcpConfig) ∧
    (orchSpawn cfg st fm req newID now outcome).1.extraArgs = req.extraArgs ∧
    (orchSpawn cfg st fm req newID now outcome).1.timeout = req.timeout.getD 0 ∧
    (orchSpawn cfg st fm req newID now outcome).1.model = req.model ∧
    (orchSpawn cfg st fm req newID now outcome).1.tags = req.tags ∧
    (∀ other, other ≠ newID →
      storeGet (orchSpawn cfg st fm req newID now outcome).2 other = storeGet st other) := by
  have hprompt : (spawnTask cfg st fm req newID now).prompt = req.prompt := by
    unfold spawnTask
    simp [hlogs]
  unfold orchSpawn
  by_cases hcs : canStart (storeSave st (spawnTask cfg st fm req newID now))
      (spawnTask cfg st fm req newID now) = true
  · rw [if_pos hcs]
    cases outcome with
    | started pid =>
      refine ⟨rfl, ⟨selfIdLine newID, by dsimp only [startTask]; rw [hprompt, spawnTask_id]⟩,
        rfl, rfl, rfl, rfl, rfl, rfl, rfl, rfl, ?_⟩
      intro other hne
      dsimp only [startTask]
      rw [storeGet_save, storeGet_save]
      simp [spawnTask_id, hne]
    | spawnFailed msg =>
      refine ⟨rfl, ⟨selfIdLine newID, by dsimp only [startTask]; rw [hprompt, spawnTask_id]⟩,
        rfl, rfl, rfl, rfl, rfl, rfl, rfl, rfl, ?_⟩
      intro other hne
      dsimp only [startTask]
      rw [storeGet_save, storeGet_save]
      simp [spawnTask_id, hne]
    | deferred =>
      refine ⟨rfl, ⟨"", by dsimp only [startTask]; rw [hprompt, String.empty_append]⟩,
        rfl, rfl, rfl, rfl, rfl, rfl, rfl, rfl, ?_⟩
      intro other hne
      dsimp only [startTask]
      rw [storeGet_save]
      simp [spawnTask_id, hne]
  · rw [if_neg hcs]
    refine ⟨rfl, ⟨"", by rw [hprompt, String.empty_append]⟩,
      rfl, rfl, rfl, rfl, rfl, rfl, rfl, rfl, ?_⟩
    intro other hne
    rw [storeGet_save]
    simp [spawnTask_id, hne]

/-- The resume prompt, under any prefix, contains the task-id marker, the
log-path marker, and the caller's trimmed instructions at its very end. -/
theorem resumePrompt_decompositions (pre : String) (prev : Task) (p : String) :
    (∃ a b, pre ++ resumePrompt prev p =
      a ++ ("Resume work from previous task_id: " ++ prev.id) ++ b)
  ∧ (∃ a b, pre ++ resumePrompt prev p =
      a ++ ("Previous task log file path: " ++ prev.logFile) ++ b)
  ∧ (∃ a, pre ++ resumePrompt prev p = a ++ (trimSpace p ++ "\n")) := by
  refine ⟨⟨pre, "\n" ++ "Previous task log file path: " ++ prev.logFile ++ "\n\n" ++
      "Additional resume instructions:\n" ++ trimSpace p ++ "\n", ?_⟩,
    ⟨pre ++ "Resume work from previous task_id: " ++ prev.id ++ "\n",
      "\n\n" ++ "Additional resume instructions:\n" ++ trimSpace p ++ "\n", ?_⟩,
    ⟨pre ++ "Resume work from previous task_id: " ++ prev.id ++ "\n" ++
      "Previous task log file path: " ++ prev.logFile ++ "\n\n" ++
      "Additional resume instructions:\n", ?_⟩⟩ <;>
  simp only [resumePrompt, String.append_assoc]

/-! Claim theorems. -/

/-- Claim C1 (confirmed): a task transitions from pending to running only
when every dependency id resolves in the store to a completed task.
canStart is exactly that condition; the completion fan-out
(processDependentTasks) starts only pending tasks satisfying it; and the
spawn path leaves a task whose dependencies are unsatisfied in pending. -/
theorem C1_dependency_gating :
    (∀ st t, canStart st t = true ↔
      ∀ d ∈ t.dependencies, ∃ u, storeGet st d = some u ∧ u.status = .completed)
  ∧ (∀ st don t, t ∈ processDependentTasks st don →
      t.status = .pending ∧ canStart st t = true)
  ∧ (∀ cfg st fm req newID now outcome,
      canStart (storeSave st (spawnTask cfg st fm req newID now))
        (spawnTask cfg st fm req newID now) = false →
      (orchSpawn cfg st fm req newID now outcome).1.status = .pending ∧
      (orchSpawn cfg st fm req newID now outcome).2 =
        storeSave st (spawnTask cfg st fm req newID now)) := by
  refine ⟨canStart_iff, ?_, ?_⟩
  · intro st don t ht
    unfold processDependentTasks at ht
    split at ht
    · simp at ht
    · rw [List.mem_filter] at ht
      obtain ⟨hmem, hcan⟩ := ht
      exact ⟨((mem_storeList_pending st t).mp hmem).2, hcan⟩
  · intro cfg st fm req newID now outcome h
    unfold orchSpawn
    simp only [h]
    simp [spawnTask_status]

/-- Witness for C1 on the sample store: taskB's single dependency is the
completed taskA, so the fan-out starts it, while the spawn of a request
depending on a missing id leaves the new task pending. -/
theorem C1_dependency_gating_witness :
    ((∀ d ∈ taskB.dependencies, ∃ u, storeGet sampleStore d = some u ∧ u.status = .completed)
     ∧ (taskB.status = .pending ∧ canStart sampleStore taskB = true)
     ∧ (orchSpawn {} sampleStore sampleFiles ghostReq "g1" 9 .deferred).1.status = .pending) := by
  refine ⟨(C1_dependency_gating.1 sampleStore taskB).mp (by decide),
    C1_dependency_gating.2.1 sampleStore taskA taskB (by decide),
    (C1_dependency_gating.2.2 {} sampleStore sampleFiles ghostReq "g1" 9 .deferred (by decide)).1⟩

/-- Claim C2 (confirmed): on reap, a status of cancelled or paused is
preserved with only the exit code recorded; otherwise exit code 0 gives
completed, and a non-zero exit or wait error gives failed with the error
message recorded. -/
theorem C2_reap_preserves_explicit_stop (t : Task) (w : WaitOutcome) (now : Nat)
    (captured : String) :
    ((t.status = .cancelled ∨ t.status = .paused) →
      (waitForCompletion t w now captured).status = t.status ∧
      (waitForCompletion t w now captured).error = t.error ∧
      (waitForCompletion t w now captured).exitCode =
        (match w with
         | .success => some 0
         | .exitError c _ => some c
         | .otherError _ => t.exitCode))
  ∧ (t.status ≠ .cancelled → t.status ≠ .paused →
      ((w = .success →
        (waitForCompletion t w now captured).status = .completed ∧
        (waitForCompletion t w now captured).exitCode = some 0) ∧
       (∀ c m, w = .exitError c m →
        (waitForCompletion t w now captured).status = .failed ∧
        (waitForCompletion t w now captured).error = m ∧
        (waitForCompletion t w now captured).exitCode = some c) ∧
       (∀ m, w = .otherError m →
        (waitForCompletion t w now captured).status = .failed ∧
        (waitForCompletion t w now captured).error = m))) := by
  constructor
  · intro h
    rcases h with h | h <;> cases w <;> simp [waitForCompletion, h]
  · intro hc hp
    refine ⟨?_, ?_, ?_⟩
    · rintro rfl
      simp [waitForCompletion, hc, hp]
    · rintro c m rfl
      simp [waitForCompletion, hc, hp]
    · rintro m rfl
      simp [waitForCompletion, hc, hp]

/-- Witness for C2: a paused task keeps its status through a non-zero exit,
and a running task with exit code 0 completes. -/
theorem C2_reap_preserves_explicit_stop_witness :
    ((waitForCompletion taskP (.exitError 137 "signal: killed") 9 "").status = .paused ∧
     (waitForCompletion taskP (.exitError 137 "signal: killed") 9 "").exitCode = some 137) ∧
    ((waitForCompletion taskR .success 9 "done").status = .completed ∧
     (waitForCompletion taskR .success 9 "done").exitCode = some 0) := by
  constructor
  · have h := (C2_reap_preserves_explicit_stop taskP (.exitError 137 "signal: killed") 9 "").1
      (Or.inr rfl)
    exact ⟨h.1, h.2.2⟩
  · exact ((C2_reap_preserves_explicit_stop taskR .success 9 "done").2
      (by decide) (by decide)).1 rfl

/-- Claim C3 (code bug): in the adapter's Cancel and Pause, SIGTERM is sent
strictly before the status mutation - the opposite of the claimed order -
so a reaper that wakes while the task still reads running (the child dying
within the 5 s grace period) marks the explicitly-stopped task failed. -/
theorem C3_cancel_signals_before_status_mutation :
    eventIdx cancelEvents .sendSigterm < eventIdx cancelEvents (.setStatus .cancelled)
  ∧ eventIdx pauseEvents .sendSigterm < eventIdx pauseEvents (.setStatus .paused)
  ∧ (waitForCompletion taskR (.exitError 143 "signal: terminated") 5 "").status = .failed
  ∧ (waitForCompletion taskR (.exitError 143 "signal: terminated") 5 "").status ≠ .cancelled := by
  refine ⟨by decide, by decide, by decide, by decide⟩

/-- Claim C4 (code bug): ValidEngine accepts only copilot and claude, so
spawn_agent rejects gemini and opencode with an error whose own text lists
them as valid, even though the manager dispatches both to real adapters. -/
theorem C4_engine_validation_rejects_gemini_opencode :
    ValidEngine "copilot" = true ∧ ValidEngine "claude" = true ∧
    ValidEngine "gemini" = false ∧ ValidEngine "opencode" = false ∧
    toolSpawnAgent {} sampleStore sampleFiles { prompt := "go", engine := "gemini" } "n1" 9 .deferred =
      .error "invalid engine: gemini (valid: copilot, claude, gemini, opencode)" ∧
    toolSpawnAgent {} sampleStore sampleFiles { prompt := "go", engine := "opencode" } "n1" 9 .deferred =
      .error "invalid engine: opencode (valid: copilot, claude, gemini, opencode)" ∧
    managerSelect "gemini" = .gemini ∧ managerSelect "opencode" = .opencode ∧
    managerSelect "claude" = .claude ∧ managerSelect "copilot" = .copilot := by
  refine ⟨rfl, rfl, rfl, rfl, rfl, rfl, rfl, rfl, rfl, rfl⟩

/-- Counterexample to C5 as stated: for the twenty-nines string the 64-bit
scan fails and the stored percentage is 0, while the spec formula
min(100, max(0, int(extract_digits(p)))) gives 100. -/
theorem C5_overflow_counterexample :
    storedPercentage (toolSetProgress sampleStore "r" (.str "99999999999999999999") "big" 9).2 "r" = some 0
  ∧ specStoredPercentage (specExtractDigitsInt "99999999999999999999") = 100
  ∧ (0 : Int) ≠ 100 := by
  refine ⟨by decide, ?_, by decide⟩
  have h : specExtractDigitsInt "99999999999999999999" = 99999999999999999999 := by decide
  rw [h]
  simp [specStoredPercentage]

/-- Claim C5 as amended (proved): the stored percentage is
min(100, max(0, v)) where v is the truncated numeric input (for in-64-bit
numbers), the 64-bit parse of the sanitised string when it succeeds, and 0
when the sanitised string is empty or the 64-bit parse fails (non-numeric
or out of range). -/
theorem C5_percentage_coercion_amended :
    ∀ st id t d now, storeGet st id = some t → t.id = id →
      ((∀ q, int64Min ≤ ratTrunc q → ratTrunc q ≤ int64Max →
          storedPercentage (toolSetProgress st id (.num q) d now).2 id =
            some (specStoredPercentage (ratTrunc q)))
       ∧ (∀ s v, parseIntDec (sanitizeDigits s) = some v →
          storedPercentage (toolSetProgress st id (.str s) d now).2 id =
            some (specStoredPercentage v))
       ∧ (∀ s, sanitizeDigits s = "" ∨ parseIntDec (sanitizeDigits s) = none →
          storedPercentage (toolSetProgress st id (.str s) d now).2 id = some 0)) := by
  intro st id t d now hget hid
  refine ⟨?_, ?_, ?_⟩
  · intro q _ _
    exact storedPercentage_setProgress st id (ratTrunc q) d now t hget hid
  · intro s v hparse
    unfold toolSetProgress coercePercentage
    have hne : (sanitizeDigits s == "") = false := by
      rcases h : sanitizeDigits s == "" with _ | _
      · rfl
      · rw [beq_iff_eq] at h
        rw [h, show parseIntDec "" = none from by decide] at hparse
        cases hparse
    simp only [hne, Bool.false_eq_true, if_false, hparse]
    exact storedPercentage_setProgress st id v d now t hget hid
  · intro s hcase
    unfold toolSetProgress coercePercentage
    rcases hcase with h | h
    · simp only [h]
      have : storedPercentage (orchSetProgress st id 0 d now).2 id = some (specStoredPercentage 0) :=
        storedPercentage_setProgress st id 0 d now t hget hid
      simpa [specStoredPercentage] using this
    · by_cases he : sanitizeDigits s == ""
      · simp only [he, if_pos]
        have : storedPercentage (orchSetProgress st id 0 d now).2 id = some (specStoredPercentage 0) :=
          storedPercentage_setProgress st id 0 d now t hget hid
        simpa [specStoredPercentage] using this
      · simp only [if_neg he, h]
        have : storedPercentage (orchSetProgress st id 0 d now).2 id = some (specStoredPercentage 0) :=
          storedPercentage_setProgress st id 0 d now t hget hid
        simpa [specStoredPercentage] using this

/-- Witness for C5 as amended: 45 stores as 45, the string "150" clamps to
100, and the non-numeric "abc" stores 0. -/
theorem C5_percentage_coercion_amended_witness :
    storedPercentage (toolSetProgress sampleStore "r" (.num 45) "d" 9).2 "r" = some 45
  ∧ storedPercentage (toolSetProgress sampleStore "r" (.str "150") "d" 9).2 "r" = some 100
  ∧ storedPercentage (toolSetProgress sampleStore "r" (.str "abc") "d" 9).2 "r" = some 0 := by
  have h := C5_percentage_coercion_amended sampleStore "r" taskR "d" 9 (by decide) rfl
  refine ⟨?_, ?_, h.2.2 "abc" (Or.inl (by decide))⟩
  · have h1 := h.1 45 (by decide) (by decide)
    rw [h1, show ratTrunc (45 : Rat) = 45 from by decide]
    norm_num [specStoredPercentage]
  · have h2 := h.2.1 "150" 150 (by decide)
    rw [h2]
    norm_num [specStoredPercentage]

/-- Counterexample to C6 as stated: paused is a terminal status, yet Pause
of an already-paused task returns the record successfully instead of an
error. -/
theorem C6_pause_already_paused_counterexample :
    taskP.isTerminal = true ∧
    (orchPause sampleStore "p" 9 (.ok ())).1 = .ok taskP ∧
    (orchPause sampleStore "p" 9 (.ok ())).2 = sampleStore := by
  refine ⟨rfl, rfl, rfl⟩

/-- Claim C6 as amended (proved): Cancel rejects every terminal task and
Pause rejects completed, failed and cancelled tasks, both leaving the store
untouched; Pause of an already-paused task is a successful no-op returning
the unchanged record. -/
theorem C6_terminal_reject_amended :
    (∀ st id now mc t, storeGet st id = some t → t.isTerminal = true →
       (∃ e, (orchCancel st id now mc).1 = .error e) ∧ (orchCancel st id now mc).2 = st)
  ∧ (∀ st id now mp t, storeGet st id = some t → t.isTerminal = true → t.status ≠ .paused →
       (∃ e, (orchPause st id now mp).1 = .error e) ∧ (orchPause st id now mp).2 = st)
  ∧ (∀ st id now mp t, storeGet st id = some t → t.status = .paused →
       (orchPause st id now mp).1 = .ok t ∧ (orchPause st id now mp).2 = st) := by
  refine ⟨?_, ?_, ?_⟩
  · intro st id now mc t hget hterm
    unfold orchCancel
    rw [hget]
    simp [hterm]
  · intro st id now mp t hget hterm hnp
    unfold orchPause
    rw [hget]
    have : (t.status == TaskStatus.paused) = false := by
      simpa using hnp
    simp [this, hterm]
  · intro st id now mp t hget hp
    unfold orchPause
    rw [hget]
    simp [hp]

/-- Witness for C6 as amended, on the failed task and the paused task of the
sample store. -/
theorem C6_terminal_reject_amended_witness :
    ((∃ e, (orchCancel sampleStore "f" 9 (.ok ())).1 = .error e) ∧
     (orchCancel sampleStore "f" 9 (.ok ())).2 = sampleStore) ∧
    ((∃ e, (orchPause sampleStore "f" 9 (.ok ())).1 = .error e) ∧
     (orchPause sampleStore "f" 9 (.ok ())).2 = sampleStore) ∧
    ((orchPause sampleStore "p" 9 (.ok ())).1 = .ok taskP ∧
     (orchPause sampleStore "p" 9 (.ok ())).2 = sampleStore) := by
  refine ⟨C6_terminal_reject_amended.1 sampleStore "f" 9 (.ok ()) taskF (by decide) (by decide),
    C6_terminal_reject_amended.2.1 sampleStore "f" 9 (.ok ()) taskF (by decide) (by decide) (by decide),
    C6_terminal_reject_amended.2.2 sampleStore "p" 9 (.ok ()) taskP (by decide) rfl⟩

/-- Counterexample to C7 as stated: Delete of a task id absent from the
store returns the not-found error, not success. -/
theorem C7_delete_missing_counterexample :
    storeGet sampleStore "ghost" = none ∧
    (orchDelete sampleStore "ghost" 0).1 = .error "task not found: ghost" := by
  exact ⟨rfl, rfl⟩

/-- Claim C7 as amended (proved): Purge of a missing id succeeds and changes
nothing; Purge of a present task succeeds, removes the record, unlinks its
log file, and purging the same id again still succeeds; Delete of a missing
id returns the not-found error. -/
theorem C7_purge_idempotent_amended :
    (∀ st fm id now, storeGet st id = none →
        orchPurge st fm id now = (.ok (), st, fm))
  ∧ (∀ st fm id now t, storeGet st id = some t →
        (orchPurge st fm id now).1 = .ok () ∧
        storeGet (orchPurge st fm id now).2.1 id = none ∧
        (t.logFile ≠ "" → fileRead (orchPurge st fm id now).2.2 t.logFile = none) ∧
        (orchPurge (orchPurge st fm id now).2.1 (orchPurge st fm id now).2.2 id now).1 = .ok ())
  ∧ (∀ st id now, storeGet st id = none →
        (orchDelete st id now).1 = .error ("task not found: " ++ id)) := by
  have hnone : ∀ st fm id now, storeGet st id = none →
      orchPurge st fm id now = (.ok (), st, fm) := by
    intro st fm id now hget
    unfold orchPurge
    rw [hget]
  have hmain : ∀ st fm id now t, storeGet st id = some t →
      (orchPurge st fm id now).1 = .ok () ∧
      storeGet (orchPurge st fm id now).2.1 id = none ∧
      (t.logFile ≠ "" → fileRead (orchPurge st fm id now).2.2 t.logFile = none) := by
    intro st fm id now t hget
    have hsome : (storeGet (if t.status == TaskStatus.running
        then storeSave st { t with status := .cancelled, completedAt := some now }
        else st) id).isSome := by
      by_cases hr : (t.status == TaskStatus.running) = true
      · rw [if_pos hr, storeGet_save]
        dsimp only []
        by_cases hid : id = t.id
        · simp [hid]
        · simp [hid, hget]
      · rw [if_neg hr]
        simp [hget]
    unfold orchPurge
    rw [hget]
    dsimp only []
    rw [storeDelete_of_some _ _ hsome]
    dsimp only []
    refine ⟨rfl, storeGet_eraseKey_self _ _, ?_⟩
    intro hlog
    rw [if_pos hlog]
    exact fileRead_remove_self fm t.logFile
  refine ⟨hnone, ?_, ?_⟩
  · intro st fm id now t hget
    have h := hmain st fm id now t hget
    refine ⟨h.1, h.2.1, h.2.2, ?_⟩
    rw [hnone _ _ id now h.2.1]
  · intro st id now hget
    unfold orchDelete
    rw [hget]

/-- Witness for C7 as amended: purging a missing id and double-purging the
failed sample task both succeed, and deleting a missing id errors. -/
theorem C7_purge_idempotent_amended_witness :
    orchPurge [] [] "ghost" 0 = (.ok (), [], []) ∧
    (orchPurge sampleStore sampleFiles "f" 9).1 = .ok () ∧
    storeGet (orchPurge sampleStore sampleFiles "f" 9).2.1 "f" = none ∧
    fileRead (orchPurge sampleStore sampleFiles "f" 9).2.2 "/logs/f.log" = none ∧
    (orchPurge (orchPurge sampleStore sampleFiles "f" 9).2.1
      (orchPurge sampleStore sampleFiles "f" 9).2.2 "f" 9).1 = .ok () ∧
    (orchDelete [] "ghost" 0).1 = .error "task not found: ghost" := by
  have h := C7_purge_idempotent_amended.2.1 sampleStore sampleFiles "f" 9 taskF (by decide)
  exact ⟨C7_purge_idempotent_amended.1 [] [] "ghost" 0 (by decide), h.1, h.2.1,
    h.2.2.1 (by decide), h.2.2.2, C7_purge_idempotent_amended.2.2 [] "ghost" 0 (by decide)⟩

/-- Claim C8 (confirmed): Resume rejects a non-paused task; on a paused task
it creates a brand-new task under the fresh id whose prompt carries the
task-id marker, the log-path marker and then the caller's instructions,
inherits work_dir, dependencies, priority, mcp_config, extra_args, and -
unless overridden - timeout, model and tags, while the paused record stays
untouched in the store. -/
theorem C8_resume_inherits :
    (∀ cfg st fm id opts newID now outcome prev,
       storeGet st id = some prev → prev.status ≠ .paused →
       ∃ e, orchResume cfg st fm id opts newID now outcome = .error e)
  ∧ (∀ cfg st fm id opts newID now outcome prev,
       storeGet st id = some prev → prev.status = .paused →
       trimSpace opts.prompt ≠ "" →
       storeGet st newID = none → newID ≠ id →
       prev.workDir ≠ "" → 0 ≤ prev.timeout →
       (prev.mcpConfig ≠ "" ∨ cfg.defaultMCPConfig = "") →
       ∃ t st2, orchResume cfg st fm id opts newID now outcome = .ok (t, st2) ∧
         t.id = newID ∧
         (∃ a b, t.prompt = a ++ ("Resume work from previous task_id: " ++ prev.id) ++ b) ∧
         (∃ a b, t.prompt = a ++ ("Previous task log file path: " ++ prev.logFile) ++ b) ∧
         (∃ a, t.prompt = a ++ (trimSpace opts.prompt ++ "\n")) ∧
         t.workDir = prev.workDir ∧
         t.dependencies = prev.dependencies ∧
         t.priority = prev.priority ∧
         t.mcpConfig = prev.mcpConfig ∧
         t.extraArgs = prev.extraArgs ∧
         (opts.timeout = none → t.timeout = prev.timeout) ∧
         (opts.model = "" → t.model = prev.model) ∧
         (opts.tags = none → t.tags = prev.tags) ∧
         storeGet st2 id = some prev) := by
  constructor
  · intro cfg st fm id opts newID now outcome prev hget hnp
    unfold orchResume
    rw [hget]
    dsimp only []
    rw [if_pos hnp]
    exact ⟨_, rfl⟩
  · intro cfg st fm id opts newID now outcome prev hget hp hpr hfresh hneq hwd htime hmcp
    unfold orchResume
    rw [hget]
    dsimp only []
    rw [if_neg (by simp [hp])]
    rw [if_neg (by simpa using hpr)]
    refine ⟨(orchSpawn cfg st fm (resumeRequest prev opts) newID now outcome).1,
      (orchSpawn cfg st fm (resumeRequest prev opts) newID now outcome).2, rfl, ?_⟩
    obtain ⟨hid2, ⟨pre, hpre⟩, hwd2, hdeps, hprio, hmcp2, hextra, htime2, hmodel, htags, hframe⟩ :=
      orchSpawn_fields cfg st fm (resumeRequest prev opts) newID now outcome rfl
    have hreqprompt : (resumeRequest prev opts).prompt = resumePrompt prev opts.prompt := rfl
    rw [hreqprompt] at hpre
    have hdec := resumePrompt_decompositions pre prev opts.prompt
    rw [hpre]
    refine ⟨hid2, hdec.1, hdec.2.1, hdec.2.2, ?_, ?_, ?_, ?_, ?_, ?_, ?_, ?_, ?_⟩
    · rw [hwd2]
      have : ((resumeRequest prev opts).workDir == "") = false := by
        dsimp only [resumeRequest]
        simp [hwd]
      rw [this]
      simp only [Bool.false_eq_true, if_false]
      rfl
    · rw [hdeps]; rfl
    · rw [hprio]; rfl
    · rw [hmcp2]
      rcases hmcp with h1 | h1
      · have : ((resumeRequest prev opts).mcpConfig == "") = false := by
          dsimp only [resumeRequest]
          simp [h1]
        rw [this]
        simp only [Bool.false_eq_true, if_false]
        rfl
      · by_cases h2 : ((resumeRequest prev opts).mcpConfig == "") = true
        · rw [if_pos h2, h1]
          have h3 : (resumeRequest prev opts).mcpConfig = prev.mcpConfig := rfl
          rw [h3] at h2
          exact (beq_iff_eq.mp h2).symm
        · rw [if_neg h2]
          rfl
    · rw [hextra]; rfl
    · intro hto
      rw [htime2]
      have h4 : (resumeRequest prev opts).timeout =
          (if prev.timeout > 0 then some prev.timeout else none) := by
        dsimp only [resumeRequest]
        rw [hto]
      rw [h4]
      by_cases h5 : prev.timeout > 0
      · simp [h5]
      · simp only [h5, if_false]
        simp only [Option.getD_none]
        omega
    · intro hm
      rw [hmodel]
      have : (resumeRequest prev opts).model = prev.model := by
        dsimp only [resumeRequest]
        rw [hm]
        simp
      exact this
    · intro ht
      rw [htags]
      have : (resumeRequest prev opts).tags = prev.tags := by
        dsimp only [resumeRequest]
        rw [ht]
      exact this
    · rw [hframe id (Ne.symm hneq), hget]

/-- Witness for C8: resuming the paused sample task under the fresh id "p2"
yields a task inheriting its work_dir, dependencies, priority, mcp_config,
extra_args, timeout, model and tags, and the paused record survives. -/
theorem C8_resume_inherits_witness :
    (orchResume {} sampleStore sampleFiles "p" { prompt := "keep going" } "p2" 9 .deferred).map
      (fun r => (r.1.id, r.1.workDir, r.1.dependencies, r.1.priority, r.1.mcpConfig,
        r.1.extraArgs, r.1.timeout, r.1.model, r.1.tags, storeGet r.2 "p")) =
    .ok ("p2", "/proj", ["a"], 2, "cfg.json", ["--fast"], 60, "m1", ["alpha"], some taskP) := by
  obtain ⟨t, st2, heq, hid, _, _, _, hwd, hdeps, hprio, hmcp, hextra, htime, hmodel, htags, hprev⟩ :=
    C8_resume_inherits.2 {} sampleStore sampleFiles "p" { prompt := "keep going" } "p2" 9 .deferred taskP
      (by decide) rfl (by decide) (by decide) (by decide) (by decide) (by decide) (Or.inl (by decide))
  rw [heq]
  dsimp [Except.map]
  rw [hid, hwd, hdeps, hprio, hmcp, hextra, htime rfl, hmodel rfl, htags rfl, hprev]
  rfl

/-- Claim C9 (confirmed): Wait returns a terminal task's record immediately,
and on timeout returns the current stored record together with a timeout
error, never touching the store. -/
theorem C9_wait_timeout :
    (∀ st id t ev, storeGet st id = some t → t.isTerminal = true →
        orchWait st id ev = ((some t, none), st))
  ∧ (∀ st id t, storeGet st id = some t → t.isTerminal = false →
        (orchWait st id .timedOut).1.1 = storeGet st id ∧
        (orchWait st id .timedOut).1.2 = some ("timeout waiting for task " ++ id) ∧
        (orchWait st id .timedOut).2 = st) := by
  constructor
  · intro st id t ev hget hterm
    unfold orchWait
    rw [hget]
    simp [hterm]
  · intro st id t hget hterm
    unfold orchWait
    rw [hget]
    simp [hterm]

/-- Witness for C9: the failed sample task is returned immediately, and the
pending sample task times out with both its record and an error. -/
theorem C9_wait_timeout_witness :
    orchWait sampleStore "f" (.timedOut) = ((some taskF, none), sampleStore) ∧
    (orchWait sampleStore "b" .timedOut).1.1 = some taskB ∧
    (orchWait sampleStore "b" .timedOut).1.2 = some "timeout waiting for task b" ∧
    (orchWait sampleStore "b" .timedOut).2 = sampleStore := by
  have h2 := C9_wait_timeout.2 sampleStore "b" taskB (by decide) (by decide)
  exact ⟨C9_wait_timeout.1 sampleStore "f" taskF .timedOut (by decide) (by decide),
    by rw [h2.1]; decide, h2.2.1, h2.2.2⟩

/-- Claim C10 (confirmed): set_progress succeeds for any present id without
looking at the status, and replaces exactly the progress field with the
clamped percentage, description and timestamp, leaving the rest of the
record and every other store entry unchanged. -/
theorem C10_set_progress_frame :
    ∀ st id p d now t, storeGet st id = some t → t.id = id →
      (orchSetProgress st id p d now).1 = .ok () ∧
      storeGet (orchSetProgress st id p d now).2 id =
        some ({ t with progress := some ⟨if p < 0 then 0 else if p > 100 then 100 else p, d, now⟩ }) ∧
      (∀ other, other ≠ id → storeGet (orchSetProgress st id p d now).2 other = storeGet st other) :=
  fun st id p d now t hget hid => orchSetProgress_ok st id p d now t hget hid

/-- Witness for C10 on the terminal (failed) sample task: the update
succeeds, clamps 150 to 100, rewrites only the progress field, and leaves
the running task's entry alone. -/
theorem C10_set_progress_frame_witness :
    (orchSetProgress sampleStore "f" 150 "over" 9).1 = .ok () ∧
    storeGet (orchSetProgress sampleStore "f" 150 "over" 9).2 "f" =
      some ({ taskF with progress := some ⟨100, "over", 9⟩ }) ∧
    storeGet (orchSetProgress sampleStore "f" 150 "over" 9).2 "r" = storeGet sampleStore "r" := by
  have h := C10_set_progress_frame sampleStore "f" 150 "over" 9 taskF (by decide) rfl
  refine ⟨h.1, ?_, h.2.2 "r" (by decide)⟩
  exact h.2.1

end Mesnada
